import Mathlib

/-!
Shallow embedding of the go-audio-streaming WebSocket server (`src/main.go`),
covering the per-connection streaming session: the `handleWebSocket` receive
loop, the `streamAudio` transfer worker, and `sendStatusMessage`.

Bytes are `Nat` (values 0..255 are never constrained here; only byte-sequence
identity matters). The filesystem is an association list from filename to file
content. I/O failures of the Go runtime (open error, read error, write error)
are injected through an explicit `Behavior` record so that every branch of
`streamAudio` is represented.
-/

namespace AudioStream

/-- An outbound frame-level event: a status text message (before JSON
encoding) or a binary chunk. -/
inductive Event where
  | status (msg : String)
  | bin (chunk : List Nat)
deriving DecidableEq

/-- Chunk size of the transfer worker: `buffer := make([]byte, 8192)`
in `streamAudio` (src/main.go:246). -/
def chunkSize : Nat := 8192

/-- Split a byte list into consecutive chunks of `chunkSize` bytes
(the last chunk may be shorter), mirroring the successive
`file.Read(buffer)` calls on a regular file. -/
def toChunks : List Nat → List (List Nat)
  | [] => []
  | b :: bs => ((b :: bs).take chunkSize) :: toChunks ((b :: bs).drop chunkSize)
termination_by l => l.length
decreasing_by
  simp only [List.length_drop, chunkSize, List.length_cons]
  omega

/-- Injected I/O behavior of the Go runtime for one `streamAudio` run:
whether `os.Open` fails after the successful `os.Stat`, and at which loop
iteration (if any) `file.Read` returns a non-EOF error or
`conn.WriteMessage` fails. -/
structure Behavior where
  openErr : Bool
  readErrAt : Option Nat
  writeErrAt : Option Nat
deriving DecidableEq

/-- The error-free behavior: open succeeds, every read and write succeeds. -/
def behOK : Behavior := ⟨false, none, none⟩

/-- The `for { select { ... default: ... } }` loop of `streamAudio`
(src/main.go:248-292), in the sequential setting where no `stop`/`start`
intervenes (so `client.stopCh` is never closed and the `default` branch
always runs). `rem` is the unread remainder of the file, `k` the loop
iteration index. Returns the events emitted by the loop and the final
value of `client.streaming` (every exit path of the loop body sets it
to `false`). -/
def streamLoop (beh : Behavior) : List Nat → Nat → List Event × Bool
  | rem, k =>
    if beh.readErrAt = some k then
      ([.status "Error reading audio file"], false)
    else
      match rem with
      | [] => ([.status "Streaming finished"], false)
      | b :: bs =>
        if beh.writeErrAt = some k then ([], false)
        else
          let rest := streamLoop beh ((b :: bs).drop chunkSize) (k + 1)
          (.bin ((b :: bs).take chunkSize) :: rest.1, rest.2)
termination_by rem _ => rem.length
decreasing_by
  simp only [List.length_drop, chunkSize, List.length_cons]
  omega

/-- The transfer worker `streamAudio` (src/main.go:218-293) as a function
from the filesystem, the injected I/O behavior, the filename and the
value of `client.streaming` on entry, to the emitted events and the value
of `client.streaming` when the worker returns. The `os.Stat` existence
check is the association-list lookup; note that the not-found path and the
open-error path return without writing `client.streaming`. -/
def streamAudio (fs : List (String × List Nat)) (beh : Behavior)
    (filename : String) (streaming : Bool) : List Event × Bool :=
  match fs.lookup filename with
  | none => ([.status ("Error: File " ++ filename ++ " not found")], streaming)
  | some content =>
    if beh.openErr then
      ([.status ("Streaming " ++ filename), .status "Error opening audio file"], streaming)
    else
      let r := streamLoop beh content 0
      (.status ("Streaming " ++ filename) :: r.1, r.2)

/-- The inbound control message struct `Message` (src/main.go:70-73);
`filename` defaults to `""` when absent (`omitempty`). -/
structure Msg where
  action : String
  filename : String
deriving DecidableEq

/-- One inbound WebSocket frame: a text frame whose payload either parses
as a `Message` (`some`) or is malformed JSON (`none`, the
`json.Unmarshal` error branch), or a binary frame. -/
inductive Inbound where
  | text (parsed : Option Msg)
  | binary (payload : List Nat)
deriving DecidableEq

/-- Per-connection session state owned by `handleWebSocket`: the
`streaming` flag, the identity of the current `stopCh` channel, a counter
for allocating fresh channels (`make(chan struct\x7b\x7d)`), and the set of
channels that have been `close`d. -/
structure Session where
  streaming : Bool
  stopCh : Nat
  nextCh : Nat
  closed : List Nat
deriving DecidableEq

/-- Session state right after the connection is accepted
(src/main.go:145-150): not streaming, a fresh open channel. -/
def initSession : Session := ⟨false, 0, 1, []⟩

/-- The body of the receive loop of `handleWebSocket` (src/main.go:153-215)
for one inbound frame: returns the updated session, the status events the
handler itself emits, and `some f` when it spawns `go streamAudio(client, f)`.
Binary frames, malformed JSON, and unknown actions are ignored. -/
def handleFrame (s : Session) (fr : Inbound) : Session × List Event × Option String :=
  match fr with
  | .binary _ => (s, [], none)
  | .text none => (s, [], none)
  | .text (some m) =>
    if m.action = "start" then
      if m.filename = "" then
        (s, [.status "Error: No filename provided"], none)
      else
        let s1 :=
          if s.streaming then
            { s with stopCh := s.nextCh, nextCh := s.nextCh + 1,
                     closed := s.stopCh :: s.closed }
          else s
        ({ s1 with streaming := true }, [], some m.filename)
    else if m.action = "stop" then
      if s.streaming then
        ({ s with stopCh := s.nextCh, nextCh := s.nextCh + 1,
                  closed := s.stopCh :: s.closed, streaming := false },
         [.status "Streaming stopped"], none)
      else (s, [], none)
    else (s, [], none)

/-- The receive loop over a list of successfully received inbound frames:
threads the session state through `handleFrame`, collecting all handler
events and all spawned worker filenames in order. -/
def runLoop (s : Session) : List Inbound → Session × List Event × List String
  | [] => (s, [], [])
  | fr :: rest =>
    let r := handleFrame s fr
    let r2 := runLoop r.1 rest
    (r2.1, r.2.1 ++ r2.2.1, r.2.2.toList ++ r2.2.2)

/-- Lower-case hex digit, for the `\u00XX` escapes of `json.Marshal`. -/
def hexDigit (n : Nat) : Char :=
  if n < 10 then Char.ofNat (48 + n) else Char.ofNat (87 + n)

/-- Character escaping of Go `encoding/json.Marshal` for string values
(HTML escaping on by default: `<`, `>`, `&` become `\u00XX`). -/
def goEscapeChar (c : Char) : String :=
  if c = '"' then "\\\""
  else if c = '\\' then "\\\\"
  else if c = '\n' then "\\n"
  else if c = '\r' then "\\r"
  else if c = '\t' then "\\t"
  else if c = '<' then "\\u003c"
  else if c = '>' then "\\u003e"
  else if c = '&' then "\\u0026"
  else if c.toNat < 32 then
    "\\u00" ++ String.singleton (hexDigit (c.toNat / 16))
            ++ String.singleton (hexDigit (c.toNat % 16))
  else String.singleton c

/-- String escaping of Go `encoding/json.Marshal`. -/
def goEscape (s : String) : String :=
  String.join (s.toList.map goEscapeChar)

/-- The JSON text `sendStatusMessage` (src/main.go:295-315) writes for a
given status string: `json.Marshal(StatusMessage\x7bType: "status", Data: status\x7d)`. -/
def statusJSON (msg : String) : String :=
  "\x7b\"type\":\"status\",\"data\":\"" ++ goEscape msg ++ "\"\x7d"

/-- An outbound wire frame: a text frame carrying a JSON payload, or a
binary frame carrying raw chunk bytes. -/
inductive WireFrame where
  | text (payload : String)
  | binary (bytes : List Nat)
deriving DecidableEq

/-- How each emitted event reaches the wire: status events go through
`sendStatusMessage` as JSON text frames, chunks as binary frames
(src/main.go:275). -/
def wireOf : Event → WireFrame
  | .status m => .text (statusJSON m)
  | .bin c => .binary c

/-- The status-message kinds enumerated by the spec wire protocol:
file-not-found, stream-started, stream-finished, stream-stopped,
read-error (which per the spec also covers resource-opener failures),
no-filename-provided. -/
def enumeratedStatus (m : String) : Prop :=
  (∃ fn, m = "Error: File " ++ fn ++ " not found") ∨
  (∃ fn, m = "Streaming " ++ fn) ∨
  m = "Streaming finished" ∨
  m = "Streaming stopped" ∨
  m = "Error reading audio file" ∨
  m = "Error opening audio file" ∨
  m = "Error: No filename provided"

/-!
### Interleaving model

Concurrent semantics of one connection: the receive-loop thread of
`handleWebSocket` plus one thread per spawned `streamAudio` worker,
interleaved at the suspension points of the Go code. The channel
`stopCh` is modelled by identity: `close(stopCh)` records the current
channel id in `closed`; `make(chan struct\x7b\x7d)` allocates the next id.
`client.mu` is `lockHolder` (`some 0` = receive-loop thread, `some (i+1)` =
worker `i`); a frame write is two steps, acquire then write-and-release,
exactly the `mu.Lock(); WriteMessage(...); mu.Unlock()` span. Crucially,
the worker's `select` polls the *current field value* `client.stopCh`
(src/main.go:250), which is modelled by the two-step `loop` → `polled c`
read, `c` being the field value at the instant of the poll. -/

/-- Continuation after a worker's status send: return leaving `streaming`
untouched (file-not-found path), enter the chunk loop with the file
contents still to be read, or (EOF path) set `streaming := false` and
return. -/
inductive WCont where
  | exitKeep
  | enterLoop (rem : List Nat)
  | finishClear
deriving DecidableEq

/-- Program counter of one `streamAudio` worker thread, at the suspension
points of the Go code. -/
inductive WPhase where
  | checkFile
  | sendSt (msg : String) (k : WCont)
  | sendStHold (msg : String) (k : WCont)
  | clearStreaming
  | loop (rem : List Nat)
  | polled (c : Nat) (rem : List Nat)
  | writeChunk (ch : List Nat) (rem : List Nat)
  | writeChunkHold (ch : List Nat) (rem : List Nat)
  | done
deriving DecidableEq

/-- One spawned worker: the filename it was started with and its program
counter. -/
structure Worker where
  filename : String
  phase : WPhase
deriving DecidableEq

/-- Program counter of the receive-loop thread: ready for the next frame,
or inside `sendStatusMessage` (about to lock / holding the lock). -/
inductive HPhase where
  | ready
  | hsend (msg : String)
  | hsendHold (msg : String)
deriving DecidableEq

/-- Global state of one connection in the interleaving model. -/
structure CState where
  streaming : Bool
  stopCh : Nat
  nextCh : Nat
  closed : List Nat
  lockHolder : Option Nat
  hphase : HPhase
  workers : List Worker
  events : List Event
deriving DecidableEq

/-- State right after the connection is accepted. -/
def initC : CState := ⟨false, 0, 1, [], none, .ready, [], []⟩

/-- A scheduler action: deliver one inbound frame to the receive loop, let
the receive loop take one step inside `sendStatusMessage`, or let worker
`i` take one step. -/
inductive Act where
  | recv (fr : Inbound)
  | hstep
  | work (i : Nat)
deriving DecidableEq

/-- One atomic step of the interleaving model. Steps whose thread is
blocked (acquiring a held lock, delivering a frame while the receive loop
is mid-send) leave the state unchanged — the scheduler retries later. -/
def stepC (fs : List (String × List Nat)) (s : CState) : Act → CState
  | .recv fr =>
    match s.hphase with
    | .ready =>
      match fr with
      | .binary _ => s
      | .text none => s
      | .text (some m) =>
        if m.action = "start" then
          if m.filename = "" then
            { s with hphase := .hsend "Error: No filename provided" }
          else
            if s.streaming then
              if s.lockHolder = none then
                { s with closed := s.stopCh :: s.closed, stopCh := s.nextCh,
                         nextCh := s.nextCh + 1, streaming := true,
                         workers := s.workers ++ [⟨m.filename, .checkFile⟩] }
              else s
            else
              { s with streaming := true,
                       workers := s.workers ++ [⟨m.filename, .checkFile⟩] }
        else if m.action = "stop" then
          if s.streaming then
            if s.lockHolder = none then
              { s with closed := s.stopCh :: s.closed, stopCh := s.nextCh,
                       nextCh := s.nextCh + 1, streaming := false,
                       hphase := .hsend "Streaming stopped" }
            else s
          else s
        else s
    | _ => s
  | .hstep =>
    match s.hphase with
    | .ready => s
    | .hsend m =>
      if s.lockHolder = none then
        { s with lockHolder := some 0, hphase := .hsendHold m }
      else s
    | .hsendHold m =>
      { s with events := s.events ++ [.status m], lockHolder := none,
               hphase := .ready }
  | .work i =>
    match s.workers[i]? with
    | none => s
    | some w =>
      match w.phase with
      | .checkFile =>
        match fs.lookup w.filename with
        | none =>
          { s with workers := (s.workers.set i
              ⟨w.filename, .sendSt ("Error: File " ++ w.filename ++ " not found") .exitKeep⟩) }
        | some content =>
          { s with workers := (s.workers.set i
              ⟨w.filename, .sendSt ("Streaming " ++ w.filename) (.enterLoop content)⟩) }
      | .sendSt m k =>
        if s.lockHolder = none then
          { s with lockHolder := some (i + 1),
                   workers := s.workers.set i ⟨w.filename, .sendStHold m k⟩ }
        else s
      | .sendStHold m k =>
        { s with events := s.events ++ [.status m], lockHolder := none,
                 workers := (s.workers.set i ⟨w.filename,
                   match k with
                   | .exitKeep => .done
                   | .enterLoop rem => .loop rem
                   | .finishClear => .clearStreaming⟩) }
      | .clearStreaming =>
        { s with streaming := false,
                 workers := s.workers.set i ⟨w.filename, .done⟩ }
      | .loop rem =>
        { s with workers := s.workers.set i ⟨w.filename, .polled s.stopCh rem⟩ }
      | .polled c rem =>
        if c ∈ s.closed then
          { s with workers := s.workers.set i ⟨w.filename, .done⟩ }
        else
          match rem with
          | [] =>
            { s with workers := (s.workers.set i
                ⟨w.filename, .sendSt "Streaming finished" .finishClear⟩) }
          | b :: bs =>
            { s with workers := (s.workers.set i
                ⟨w.filename, .writeChunk ((b :: bs).take chunkSize)
                                         ((b :: bs).drop chunkSize)⟩) }
      | .writeChunk ch rem =>
        if s.lockHolder = none then
          { s with lockHolder := some (i + 1),
                   workers := s.workers.set i ⟨w.filename, .writeChunkHold ch rem⟩ }
        else s
      | .writeChunkHold ch rem =>
        { s with events := s.events ++ [.bin ch], lockHolder := none,
                 workers := s.workers.set i ⟨w.filename, .loop rem⟩ }
      | .done => s

/-- Run a schedule: fold `stepC` over a list of scheduler actions. -/
def runC (fs : List (String × List Nat)) (s : CState) : List Act → CState
  | [] => s
  | a :: acts => runC fs (stepC fs s a) acts

/-- Is a worker in the middle of a frame write (holding the send lock)? -/
def isWHold : WPhase → Bool
  | .sendStHold _ _ => true
  | .writeChunkHold _ _ => true
  | _ => false

/-- Is the receive-loop thread in the middle of a status write? -/
def isHHold : HPhase → Bool
  | .hsendHold _ => true
  | _ => false

/-- Thread ids (`k + position`) of workers currently mid-write. -/
def wHolders : Nat → List Worker → List Nat
  | _, [] => []
  | k, w :: ws => (if isWHold w.phase then [k] else []) ++ wHolders (k + 1) ws

/-- Thread ids of all threads currently performing an outbound write:
`0` is the receive loop, `i + 1` is worker `i`. -/
def holdersList (s : CState) : List Nat :=
  (if isHHold s.hphase then [0] else []) ++ wHolders 1 s.workers

/-- Mutual-exclusion invariant: the threads mid-write are exactly the
holder of `client.mu`. -/
def lockInv (s : CState) : Prop :=
  holdersList s = s.lockHolder.toList

/-- Filesystem with the two one-byte resources used in the supersede
counterexample. -/
def fsAB : List (String × List Nat) := [("a.mp3", [170]), ("b.mp3", [187])]

/-- A real schedule for `start("a.mp3")` followed by `start("b.mp3")`:
worker A announces and reaches the top of its loop, the supersede closes
channel 0 and replaces `client.stopCh` with the fresh channel 1, worker B
announces, then worker A polls — it reads the *current* field, channel 1,
which is open — so A sends its chunk after B has started, B sends its
chunk, and A runs to EOF, emitting `"Streaming finished"` and clearing
`streaming` while B is still mid-stream. -/
def actsAB : List Act :=
  [.recv (.text (some ⟨"start", "a.mp3"⟩)), .work 0, .work 0, .work 0,
   .recv (.text (some ⟨"start", "b.mp3"⟩)), .work 1, .work 1, .work 1,
   .work 0, .work 0, .work 0, .work 0,
   .work 1, .work 1, .work 1, .work 1,
   .work 0, .work 0, .work 0, .work 0, .work 0]

/-! ### Chunking lemmas -/

theorem toChunks_flatten (l : List Nat) : (toChunks l).flatten = l := by
  induction l using toChunks.induct with
  | case1 => simp [toChunks]
  | case2 b bs ih =>
    rw [toChunks]
    simp only [List.flatten_cons, ih, List.take_append_drop]

theorem toChunks_length (l : List Nat) :
    (toChunks l).length = (l.length + chunkSize - 1) / chunkSize := by
  induction l using toChunks.induct with
  | case1 => simp [toChunks, chunkSize]
  | case2 b bs ih =>
    rw [toChunks]
    simp only [List.length_cons, ih, List.length_drop, chunkSize] at *
    omega

theorem streamLoop_ok (rem : List Nat) :
    ∀ k, streamLoop behOK rem k =
      ((toChunks rem).map Event.bin ++ [Event.status "Streaming finished"], false) := by
  induction rem using toChunks.induct with
  | case1 =>
    intro k
    rw [streamLoop, toChunks]
    simp [behOK]
  | case2 b bs ih =>
    intro k
    rw [streamLoop, toChunks]
    simp only [behOK] at ih ⊢
    simp [ih (k + 1)]

/-! ### Claim theorems: sequential worker and handler -/

/-- C2: starting a stream on an existing resource of content `bs`, with no
intervening stop/start and no transport error, emits Status
`"Streaming <filename>"`, then exactly `ceil (length bs / chunkSize)`
binary frames whose in-order concatenation is byte-identical to the
resource, then Status `"Streaming finished"`, with the streaming flag
false at the end; and the chunk size is 8192 bytes. -/
theorem C2_happy_path_trace (fs : List (String × List Nat)) (f : String)
    (bs : List Nat) (st : Bool) (h : fs.lookup f = some bs) :
    streamAudio fs behOK f st =
      (Event.status ("Streaming " ++ f) ::
        ((toChunks bs).map Event.bin ++ [Event.status "Streaming finished"]), false)
    ∧ ((toChunks bs).map Event.bin).length = (bs.length + chunkSize - 1) / chunkSize
    ∧ (toChunks bs).flatten = bs
    ∧ chunkSize = 8192 := by
  refine ⟨?_, ?_, toChunks_flatten bs, rfl⟩
  · have hs := streamLoop_ok bs 0
    simp only [behOK] at hs
    simp [streamAudio, h, behOK, hs]
  · simp [toChunks_length]

/-- Witness for C2 at a concrete three-byte resource. -/
theorem C2_happy_path_trace_witness :
    (List.lookup "sample.mp3" [("sample.mp3", [7, 8, 9])] = some [7, 8, 9]) ∧
    (streamAudio [("sample.mp3", [7, 8, 9])] behOK "sample.mp3" true =
      (Event.status ("Streaming " ++ "sample.mp3") ::
        ((toChunks [7, 8, 9]).map Event.bin ++ [Event.status "Streaming finished"]), false)
    ∧ ((toChunks [7, 8, 9]).map Event.bin).length =
        (([7, 8, 9] : List Nat).length + chunkSize - 1) / chunkSize
    ∧ (toChunks [7, 8, 9]).flatten = [7, 8, 9]
    ∧ chunkSize = 8192) :=
  ⟨rfl, C2_happy_path_trace [("sample.mp3", [7, 8, 9])] "sample.mp3" [7, 8, 9] true rfl⟩

/-- C1: evaluation of `streamAudio` at the failing input. Starting
`"missing.mp3"` when the filesystem has no such file: the handler has
already set `streaming = true` before spawning the worker, the worker
emits exactly one Status `"Error: File missing.mp3 not found"` — but it
returns without resetting the flag, so `streaming` is still `true` after
the worker exits, contradicting the claim (and the spec's requirement
that the worker reset it to false on this path). -/
theorem C1_missing_file_eval :
    streamAudio [("sample.mp3", [1, 2, 3])] behOK "missing.mp3" true =
      ([Event.status "Error: File missing.mp3 not found"], true) := by
  decide

/-- C5: a `stop` received while the session is streaming closes the
current `stopCh` (it joins the closed set), allocates a fresh channel,
sets the streaming flag to false, and emits exactly one Status
`"Streaming stopped"`, spawning no worker. -/
theorem C5_stop_while_streaming (s : Session) (fn : String)
    (h : s.streaming = true) :
    handleFrame s (.text (some ⟨"stop", fn⟩)) =
      ({ s with stopCh := s.nextCh, nextCh := s.nextCh + 1,
                closed := s.stopCh :: s.closed, streaming := false },
       [Event.status "Streaming stopped"], none) := by
  simp [handleFrame, h]

/-- Witness for C5 at a concrete streaming session. -/
theorem C5_stop_while_streaming_witness :
    (Session.mk true 0 1 []).streaming = true ∧
    handleFrame ⟨true, 0, 1, []⟩ (.text (some ⟨"stop", ""⟩)) =
      (⟨false, 1, 2, [0]⟩, [Event.status "Streaming stopped"], none) :=
  ⟨rfl, C5_stop_while_streaming ⟨true, 0, 1, []⟩ "" rfl⟩

/-- C6: a `stop` received while the session is idle is a no-op: no Status
message, no state change (streaming flag and cancellation channel exactly
as before), no worker spawned. -/
theorem C6_stop_while_idle (s : Session) (fn : String)
    (h : s.streaming = false) :
    handleFrame s (.text (some ⟨"stop", fn⟩)) = (s, [], none) := by
  simp [handleFrame, h]

/-- Witness for C6 at a concrete idle session. -/
theorem C6_stop_while_idle_witness :
    (Session.mk false 3 4 [2]).streaming = false ∧
    handleFrame ⟨false, 3, 4, [2]⟩ (.text (some ⟨"stop", ""⟩)) =
      (⟨false, 3, 4, [2]⟩, [], none) :=
  ⟨rfl, C6_stop_while_idle ⟨false, 3, 4, [2]⟩ "" rfl⟩

/-- C7: a `start` with an empty filename emits exactly one Status
`"Error: No filename provided"`, spawns no worker (`none`), and leaves
the session state — in particular the streaming flag — unchanged. -/
theorem C7_empty_filename (s : Session) :
    handleFrame s (.text (some ⟨"start", ""⟩)) =
      (s, [Event.status "Error: No filename provided"], none) := by
  simp [handleFrame]

/-- C9: an inbound text frame whose payload is not well-formed JSON is
ignored: no Status is emitted, no worker is spawned, the session state is
unchanged, and the receive loop continues with the subsequent frames
exactly as if the malformed frame had not arrived. -/
theorem C9_malformed_ignored (s : Session) (rest : List Inbound) :
    handleFrame s (.text none) = (s, [], none) ∧
    runLoop s (.text none :: rest) = runLoop s rest := by
  constructor
  · rfl
  · simp [runLoop, handleFrame]

/-! ### Status-message enumeration -/

theorem streamLoop_status_cases (beh : Behavior) (rem : List Nat) :
    ∀ k m, Event.status m ∈ (streamLoop beh rem k).1 →
      m = "Streaming finished" ∨ m = "Error reading audio file" := by
  induction rem using toChunks.induct with
  | case1 =>
    intro k m hm
    rw [streamLoop] at hm
    split at hm
    · simp at hm; exact Or.inr hm
    · simp at hm; exact Or.inl hm
  | case2 b bs ih =>
    intro k m hm
    rw [streamLoop] at hm
    split at hm
    · simp at hm; exact Or.inr hm
    · split at hm
      · simp at hm
      · simp only [List.mem_cons] at hm
        rcases hm with hm | hm
        · exact absurd hm (by simp)
        · exact ih (k + 1) m hm

theorem streamAudio_status_cases (fs : List (String × List Nat)) (beh : Behavior)
    (f : String) (st : Bool) (m : String)
    (hm : Event.status m ∈ (streamAudio fs beh f st).1) :
    m = ("Error: File " ++ f ++ " not found") ∨ m = ("Streaming " ++ f) ∨
    m = "Error opening audio file" ∨ m = "Streaming finished" ∨
    m = "Error reading audio file" := by
  unfold streamAudio at hm
  split at hm
  · simp at hm; exact Or.inl hm
  · split at hm
    · simp at hm
      rcases hm with hm | hm
      · exact Or.inr (Or.inl hm)
      · exact Or.inr (Or.inr (Or.inl hm))
    · simp only [List.mem_cons] at hm
      rcases hm with hm | hm
      · simp at hm; exact Or.inr (Or.inl hm)
      · rcases streamLoop_status_cases beh _ 0 m hm with h1 | h1
        · exact Or.inr (Or.inr (Or.inr (Or.inl h1)))
        · exact Or.inr (Or.inr (Or.inr (Or.inr h1)))

theorem handleFrame_status_cases (s : Session) (fr : Inbound) (m : String)
    (hm : Event.status m ∈ (handleFrame s fr).2.1) :
    m = "Error: No filename provided" ∨ m = "Streaming stopped" := by
  unfold handleFrame at hm
  rcases fr with p | p
  · rcases p with _ | mg
    · simp at hm
    · simp only at hm
      split at hm
      · split at hm
        · simp at hm; exact Or.inl hm
        · simp at hm
      · split at hm
        · split at hm
          · simp at hm; exact Or.inr hm
          · simp at hm
        · simp at hm
  · simp at hm

/-- C8: every outbound text frame — whether emitted by the receive-loop
handler or by a transfer worker — is the JSON object
`\x7b"type":"status","data":<message>\x7d` produced by `sendStatusMessage`,
and the message is one of the enumerated kinds (file-not-found,
stream-started, stream-finished, stream-stopped, read-error — which per
the spec also covers resource-opener failures —, no-filename-provided). -/
theorem C8_status_wire_format :
    (∀ s fr m, Event.status m ∈ (handleFrame s fr).2.1 →
      wireOf (Event.status m) = WireFrame.text (statusJSON m) ∧ enumeratedStatus m) ∧
    (∀ fs beh f st m, Event.status m ∈ (streamAudio fs beh f st).1 →
      wireOf (Event.status m) = WireFrame.text (statusJSON m) ∧ enumeratedStatus m) := by
  constructor
  · intro s fr m hm
    refine ⟨rfl, ?_⟩
    rcases handleFrame_status_cases s fr m hm with h | h
    · exact Or.inr (Or.inr (Or.inr (Or.inr (Or.inr (Or.inr h)))))
    · exact Or.inr (Or.inr (Or.inr (Or.inl h)))
  · intro fs beh f st m hm
    refine ⟨rfl, ?_⟩
    rcases streamAudio_status_cases fs beh f st m hm with h | h | h | h | h
    · exact Or.inl ⟨f, h⟩
    · exact Or.inr (Or.inl ⟨f, h⟩)
    · exact Or.inr (Or.inr (Or.inr (Or.inr (Or.inr (Or.inl h)))))
    · exact Or.inr (Or.inr (Or.inl h))
    · exact Or.inr (Or.inr (Or.inr (Or.inr (Or.inl h))))

/-- Witness for C8 at the concrete `"Streaming stopped"` status emitted by
a `stop` on a streaming session. -/
theorem C8_status_wire_format_witness :
    Event.status "Streaming stopped" ∈
      (handleFrame ⟨true, 0, 1, []⟩ (.text (some ⟨"stop", ""⟩))).2.1 ∧
    (wireOf (Event.status "Streaming stopped") =
      WireFrame.text (statusJSON "Streaming stopped") ∧
     enumeratedStatus "Streaming stopped") :=
  ⟨by decide,
   C8_status_wire_format.1 ⟨true, 0, 1, []⟩ (.text (some ⟨"stop", ""⟩))
     "Streaming stopped" (by decide)⟩

/-! ### Write-error path -/

theorem streamLoop_write_fail (rem : List Nat) :
    ∀ k j, j < (toChunks rem).length →
      streamLoop ⟨false, none, some (k + j)⟩ rem k =
        (((toChunks rem).take j).map Event.bin, false) := by
  induction rem using toChunks.induct with
  | case1 =>
    intro k j hj
    rw [toChunks] at hj
    simp at hj
  | case2 b bs ih =>
    intro k j hj
    rw [streamLoop]
    match j with
    | 0 => simp
    | j' + 1 =>
      rw [toChunks] at hj ⊢
      simp only [List.length_cons] at hj
      have hne : ¬((some (k + (j' + 1)) : Option Nat) = some k) := by simp
      have hrec := ih (k + 1) j' (by omega)
      rw [show k + (j' + 1) = (k + 1) + j' by omega] at *
      simp [hne, hrec]

/-- C10: when the binary-frame write of chunk `j` fails, the worker stops
immediately: the trace is Status `"Streaming <f>"` followed by exactly the
`j` chunks written before the failure — no retry and no further Status
message on that path — and the streaming flag is false on exit. Moreover
(second conjunct) no run of the worker can ever emit a write-error Status:
its possible status messages are exhaustively the five listed kinds, none
of which reports a write failure. -/
theorem C10_write_error_silent (fs : List (String × List Nat)) (f : String)
    (bs : List Nat) (st : Bool) (j : Nat) (h : fs.lookup f = some bs)
    (hj : j < (toChunks bs).length) :
    streamAudio fs ⟨false, none, some j⟩ f st =
      (Event.status ("Streaming " ++ f) :: ((toChunks bs).take j).map Event.bin, false)
    ∧ (∀ fs2 beh f2 st2 m, Event.status m ∈ (streamAudio fs2 beh f2 st2).1 →
        m = ("Error: File " ++ f2 ++ " not found") ∨ m = ("Streaming " ++ f2) ∨
        m = "Error opening audio file" ∨ m = "Streaming finished" ∨
        m = "Error reading audio file") := by
  constructor
  · have hw := streamLoop_write_fail bs 0 j hj
    simp only [Nat.zero_add] at hw
    simp [streamAudio, h, hw]
  · exact streamAudio_status_cases

/-- Witness for C10: write of chunk 0 of a one-byte file fails. -/
theorem C10_write_error_silent_witness :
    (List.lookup "a.mp3" [("a.mp3", [5])] = some [5]) ∧ 0 < (toChunks [5]).length ∧
    (streamAudio [("a.mp3", [5])] ⟨false, none, some 0⟩ "a.mp3" true =
      (Event.status ("Streaming " ++ "a.mp3") :: ((toChunks [5]).take 0).map Event.bin, false)
    ∧ (∀ fs2 beh f2 st2 m, Event.status m ∈ (streamAudio fs2 beh f2 st2).1 →
        m = ("Error: File " ++ f2 ++ " not found") ∨ m = ("Streaming " ++ f2) ∨
        m = "Error opening audio file" ∨ m = "Streaming finished" ∨
        m = "Error reading audio file")) :=
  ⟨rfl, by simp [toChunks],
   C10_write_error_silent [("a.mp3", [5])] "a.mp3" [5] true 0 rfl (by simp [toChunks])⟩

theorem wHolders_ge (ws : List Worker) :
    ∀ k t, t ∈ wHolders k ws → k ≤ t := by
  induction ws with
  | nil => intro k t ht; simp [wHolders] at ht
  | cons x xs ih =>
    intro k t ht
    simp only [wHolders, List.mem_append] at ht
    rcases ht with ht | ht
    · split at ht <;> simp at ht; omega
    · have := ih (k + 1) t ht; omega

theorem wHolders_mem (ws : List Worker) :
    ∀ k i w, ws[i]? = some w → isWHold w.phase = true →
      k + i ∈ wHolders k ws := by
  induction ws with
  | nil => intro k i w hw; simp at hw
  | cons x xs ih =>
    intro k i w hw hold
    match i with
    | 0 =>
      simp at hw
      subst hw
      simp [wHolders, hold]
    | j + 1 =>
      simp only [List.getElem?_cons_succ] at hw
      have h1 := ih (k + 1) j w hw hold
      simp only [wHolders, List.mem_append]
      right
      have h2 : k + (j + 1) = k + 1 + j := by omega
      rw [h2]
      exact h1

theorem wHolders_append (ws : List Worker) :
    ∀ k w, wHolders k (ws ++ [w]) =
      wHolders k ws ++ (if isWHold w.phase then [k + ws.length] else []) := by
  induction ws with
  | nil => intro k w; simp [wHolders]
  | cons x xs ih =>
    intro k w
    simp only [List.cons_append, wHolders, List.append_eq, List.length_cons]
    rw [ih (k + 1) w]
    have h1 : k + 1 + xs.length = k + (xs.length + 1) := by omega
    rw [h1, List.append_assoc]

theorem wHolders_set_same (ws : List Worker) :
    ∀ k i w w', ws[i]? = some w → isWHold w'.phase = isWHold w.phase →
      wHolders k (ws.set i w') = wHolders k ws := by
  induction ws with
  | nil => intro k i w w' hw; simp at hw
  | cons x xs ih =>
    intro k i w w' hw hsame
    match i with
    | 0 =>
      simp at hw
      subst hw
      simp [List.set, wHolders, hsame]
    | j + 1 =>
      simp only [List.getElem?_cons_succ] at hw
      simp [List.set, wHolders, ih (k + 1) j w w' hw hsame]

theorem wHolders_set_acquire (ws : List Worker) :
    ∀ k i w w', ws[i]? = some w → wHolders k ws = [] →
      isWHold w'.phase = true → wHolders k (ws.set i w') = [k + i] := by
  induction ws with
  | nil => intro k i w w' hw; simp at hw
  | cons x xs ih =>
    intro k i w w' hw hnil hold
    simp only [wHolders, List.append_eq_nil] at hnil
    obtain ⟨hx, hxs⟩ := hnil
    have hxfalse : isWHold x.phase = false := by
      by_contra hc
      simp [eq_true_of_ne_false hc] at hx
    match i with
    | 0 =>
      simp [List.set, wHolders, hold, hxs]
    | j + 1 =>
      simp only [List.getElem?_cons_succ] at hw
      have h1 := ih (k + 1) j w w' hw hxs hold
      have h2 : k + 1 + j = k + (j + 1) := by omega
      rw [h2] at h1
      simp [List.set, wHolders, hxfalse, h1]

theorem wHolders_set_release (ws : List Worker) :
    ∀ k i w w', ws[i]? = some w → wHolders k ws = [k + i] →
      isWHold w'.phase = false → wHolders k (ws.set i w') = [] := by
  induction ws with
  | nil => intro k i w w' hw; simp at hw
  | cons x xs ih =>
    intro k i w w' hw hone hold'
    match i with
    | 0 =>
      simp only [wHolders] at hone
      cases hx : isWHold x.phase with
      | true =>
        simp only [hx, if_true, List.singleton_append] at hone
        have hxs : wHolders (k + 1) xs = [] := (List.cons_eq_cons.mp hone).2
        simp [List.set, wHolders, hold', hxs]
      | false =>
        rw [hx] at hone
        simp only [Bool.false_eq_true, if_false, List.nil_append] at hone
        have hm : k + 0 ∈ wHolders (k + 1) xs := by
          rw [hone]; exact List.mem_singleton_self _
        have := wHolders_ge xs (k + 1) (k + 0) hm
        omega
    | j + 1 =>
      simp only [List.getElem?_cons_succ] at hw
      simp only [wHolders] at hone
      cases hx : isWHold x.phase with
      | true =>
        simp only [hx, if_true, List.singleton_append] at hone
        have hk := (List.cons_eq_cons.mp hone).1
        omega
      | false =>
        rw [hx] at hone
        simp only [Bool.false_eq_true, if_false, List.nil_append] at hone
        have heq : wHolders (k + 1) xs = [(k + 1) + j] := by
          rw [hone]; congr 1; omega
        have h1 := ih (k + 1) j w w' hw heq hold'
        simp [List.set, wHolders, hx, h1]

theorem lockInv_of_parts (s s' : CState) (h : lockInv s)
    (hh : isHHold s'.hphase = isHHold s.hphase)
    (hw : wHolders 1 s'.workers = wHolders 1 s.workers)
    (hl : s'.lockHolder = s.lockHolder) : lockInv s' := by
  unfold lockInv holdersList at h ⊢
  rw [hh, hw, hl, h]

theorem lockInv_append (s s' : CState) (h : lockInv s) (w : Worker)
    (hw : s'.workers = s.workers ++ [w]) (hold : isWHold w.phase = false)
    (hh : isHHold s'.hphase = isHHold s.hphase)
    (hl : s'.lockHolder = s.lockHolder) : lockInv s' := by
  refine lockInv_of_parts s s' h hh ?_ hl
  rw [hw, wHolders_append, hold]
  simp

theorem isHHold_false_of_nil (s : CState)
    (h : (if isHHold s.hphase then [0] else []) ++ wHolders 1 s.workers = []) :
    isHHold s.hphase = false ∧ wHolders 1 s.workers = [] := by
  rcases List.append_eq_nil.mp h with ⟨h1, h2⟩
  refine ⟨?_, h2⟩
  by_contra hc
  simp [eq_true_of_ne_false hc] at h1

theorem lockInv_acquire_worker (s s' : CState) (i : Nat) (w w' : Worker)
    (h : lockInv s) (hl : s.lockHolder = none) (hwi : s.workers[i]? = some w)
    (hh : isHHold s'.hphase = isHHold s.hphase)
    (hw : s'.workers = s.workers.set i w') (hold' : isWHold w'.phase = true)
    (hl' : s'.lockHolder = some (i + 1)) : lockInv s' := by
  unfold lockInv holdersList at h ⊢
  rw [hl] at h
  simp only [Option.toList_none] at h
  obtain ⟨hhf, hwn⟩ := isHHold_false_of_nil s h
  rw [hh, hhf, hw, wHolders_set_acquire s.workers 1 i w w' hwi hwn hold', hl']
  simp [Nat.add_comm]

theorem lockInv_release_worker (s s' : CState) (i : Nat) (w w' : Worker)
    (h : lockInv s) (hwi : s.workers[i]? = some w)
    (hold : isWHold w.phase = true)
    (hh : isHHold s'.hphase = isHHold s.hphase)
    (hw : s'.workers = s.workers.set i w') (hold' : isWHold w'.phase = false)
    (hl' : s'.lockHolder = none) : lockInv s' := by
  unfold lockInv holdersList at h ⊢
  have hmem : 1 + i ∈ wHolders 1 s.workers := wHolders_mem s.workers 1 i w hwi hold
  cases hls : s.lockHolder with
  | none =>
    rw [hls] at h
    simp only [Option.toList_none] at h
    obtain ⟨_, hwn⟩ := isHHold_false_of_nil s h
    rw [hwn] at hmem
    simp at hmem
  | some t =>
    rw [hls] at h
    simp only [Option.toList_some] at h
    have hhf : isHHold s.hphase = false := by
      cases hhh : isHHold s.hphase with
      | false => rfl
      | true =>
        rw [hhh] at h
        simp only [reduceIte, List.singleton_append] at h
        have h2 := (List.cons_eq_cons.mp h).2
        rw [h2] at hmem
        simp at hmem
    rw [hhf] at h
    simp only [Bool.false_eq_true, if_false, List.nil_append] at h
    have ht : t = 1 + i := by
      rw [h] at hmem
      exact (List.mem_singleton.mp hmem).symm
    rw [ht] at h
    rw [hh, hhf, hw, wHolders_set_release s.workers 1 i w w' hwi h hold', hl']
    simp

theorem lockInv_acquire_handler (s s' : CState) (h : lockInv s)
    (hl : s.lockHolder = none) (hw : s'.workers = s.workers)
    (hh' : isHHold s'.hphase = true) (hl' : s'.lockHolder = some 0) :
    lockInv s' := by
  unfold lockInv holdersList at h ⊢
  rw [hl] at h
  simp only [Option.toList_none] at h
  obtain ⟨_, hwn⟩ := isHHold_false_of_nil s h
  rw [hh', hw, hwn, hl']
  simp

theorem lockInv_release_handler (s s' : CState) (h : lockInv s)
    (hh : isHHold s.hphase = true) (hw : s'.workers = s.workers)
    (hh' : isHHold s'.hphase = false) (hl' : s'.lockHolder = none) :
    lockInv s' := by
  unfold lockInv holdersList at h ⊢
  rw [hh] at h
  simp only [reduceIte, List.singleton_append] at h
  have hwn : wHolders 1 s.workers = [] := by
    cases hls : s.lockHolder with
    | none => rw [hls] at h; simp at h
    | some t =>
      rw [hls] at h
      simp only [Option.toList_some] at h
      exact (List.cons_eq_cons.mp h).2
  rw [hh', hw, hwn, hl']
  simp

theorem stepC_lockInv (fs : List (String × List Nat)) (s : CState) (a : Act)
    (h : lockInv s) : lockInv (stepC fs s a) := by
  cases a with
  | recv fr =>
    simp only [stepC]
    cases hh : s.hphase with
    | hsend m => exact h
    | hsendHold m => exact h
    | ready =>
      cases fr with
      | binary p => exact h
      | text p =>
        cases p with
        | none => exact h
        | some m =>
          simp only []
          split
          · split
            · exact lockInv_of_parts s _ h (by simp [isHHold, hh]) rfl rfl
            · split
              · split
                · exact lockInv_append s _ h ⟨m.filename, .checkFile⟩ rfl rfl
                    (by simp [isHHold, hh]) rfl
                · exact h
              · exact lockInv_append s _ h ⟨m.filename, .checkFile⟩ rfl rfl
                  (by simp [isHHold, hh]) rfl
          · split
            · split
              · split
                · exact lockInv_of_parts s _ h (by simp [isHHold, hh]) rfl rfl
                · exact h
              · exact h
            · exact h
  | hstep =>
    simp only [stepC]
    cases hh : s.hphase with
    | ready => exact h
    | hsend m =>
      simp only []
      split
      · rename_i hl
        exact lockInv_acquire_handler s _ h hl rfl rfl rfl
      · exact h
    | hsendHold m =>
      simp only []
      exact lockInv_release_handler s _ h (by simp [isHHold, hh]) rfl rfl rfl
  | work i =>
    simp only [stepC]
    cases hwi : s.workers[i]? with
    | none => exact h
    | some w =>
      simp only []
      cases hph : w.phase with
      | checkFile =>
        simp only []
        cases hlk : fs.lookup w.filename with
        | none =>
          simp only []
          refine lockInv_of_parts s _ h rfl ?_ rfl
          exact wHolders_set_same s.workers 1 i w _ hwi (by simp [isWHold, hph])
        | some content =>
          simp only []
          refine lockInv_of_parts s _ h rfl ?_ rfl
          exact wHolders_set_same s.workers 1 i w _ hwi (by simp [isWHold, hph])
      | sendSt m k =>
        simp only []
        split
        · rename_i hl
          exact lockInv_acquire_worker s _ i w _ h hl hwi rfl rfl rfl rfl
        · exact h
      | sendStHold m k =>
        simp only []
        cases k with
        | exitKeep =>
          exact lockInv_release_worker s _ i w _ h hwi (by simp [isWHold, hph]) rfl rfl rfl rfl
        | enterLoop rem =>
          exact lockInv_release_worker s _ i w _ h hwi (by simp [isWHold, hph]) rfl rfl rfl rfl
        | finishClear =>
          exact lockInv_release_worker s _ i w _ h hwi (by simp [isWHold, hph]) rfl rfl rfl rfl
      | clearStreaming =>
        simp only []
        refine lockInv_of_parts s _ h rfl ?_ rfl
        exact wHolders_set_same s.workers 1 i w _ hwi (by simp [isWHold, hph])
      | loop rem =>
        simp only []
        refine lockInv_of_parts s _ h rfl ?_ rfl
        exact wHolders_set_same s.workers 1 i w _ hwi (by simp [isWHold, hph])
      | polled c rem =>
        simp only []
        split
        · refine lockInv_of_parts s _ h rfl ?_ rfl
          exact wHolders_set_same s.workers 1 i w _ hwi (by simp [isWHold, hph])
        · cases rem with
          | nil =>
            simp only []
            refine lockInv_of_parts s _ h rfl ?_ rfl
            exact wHolders_set_same s.workers 1 i w _ hwi (by simp [isWHold, hph])
          | cons b bs =>
            simp only []
            refine lockInv_of_parts s _ h rfl ?_ rfl
            exact wHolders_set_same s.workers 1 i w _ hwi (by simp [isWHold, hph])
      | writeChunk ch rem =>
        simp only []
        split
        · rename_i hl
          exact lockInv_acquire_worker s _ i w _ h hl hwi rfl rfl rfl rfl
        · exact h
      | writeChunkHold ch rem =>
        simp only []
        exact lockInv_release_worker s _ i w _ h hwi (by simp [isWHold, hph]) rfl rfl rfl rfl
      | done => exact h

theorem runC_lockInv (fs : List (String × List Nat)) (acts : List Act) :
    ∀ s, lockInv s → lockInv (runC fs s acts) := by
  induction acts with
  | nil => intro s h; exact h
  | cons a acts ih =>
    intro s h
    exact ih (stepC fs s a) (stepC_lockInv fs s a h)

/-- C4: in every state reachable by any schedule (any sequence of
start/stop control messages interleaved with worker steps), the set of
threads mid-write (`holdersList`, where writes happen only in the
`hsendHold`, `sendStHold` and `writeChunkHold` phases, entered by
acquiring `client.mu` and left by the write-and-unlock step) is exactly
the current holder of the send lock — hence at most one outbound write
(status or binary chunk) is in flight at any instant, each performed
while holding the lock for that single frame write. -/
theorem C4_serialized_writes (fs : List (String × List Nat)) (acts : List Act) :
    holdersList (runC fs initC acts) = (runC fs initC acts).lockHolder.toList
    ∧ (holdersList (runC fs initC acts)).length ≤ 1 := by
  have h : lockInv (runC fs initC acts) :=
    runC_lockInv fs acts initC (by simp [lockInv, holdersList, wHolders, isHHold, initC])
  refine ⟨h, ?_⟩
  rw [lockInv] at h
  rw [h]
  cases (runC fs initC acts).lockHolder <;> simp

/-- C3: evaluation of the interleaving model at the failing schedule
`actsAB`. The trace contains A's binary frame `[170]` and A's
`"Streaming finished"` *after* B's `"Streaming b.mp3"`, interleaved with
B's frame `[187]` — because the superseded worker polls the replaced
`client.stopCh` field (always a fresh open channel) and never observes
the close of its own channel. This contradicts the claim that A's worker
eventually observes cancellation, stops sending without emitting
`"Streaming finished"`, and that frames delivered after B's start are
B's content only. -/
theorem C3_supersede_counterexample :
    (runC fsAB initC actsAB).events =
      [Event.status "Streaming a.mp3", Event.status "Streaming b.mp3",
       Event.bin [170], Event.bin [187], Event.status "Streaming finished"]
    ∧ (runC fsAB initC actsAB).streaming = false := by
  decide

end AudioStream
